import Mathlib

/-
Verification development for the two patch scripts of the repository
(`patches/enable-cowork.py` and `patches/inject-cowork-bridge.py`).

Buffers are modelled as `List Char`.  Python string operations are
translated one-to-one:
  * `old in s`          becomes `isSub old s`
  * `s.replace(a, b)`   becomes `replaceAll a b s`   (all occurrences)
  * `s.replace(a, b, 1)` becomes `replaceFirstF a b s` (first occurrence)
Character classes mirror the ASCII behaviour of Python's `re` module
(`\w` = letters, digits, underscore; `\s` = space, tab, newline, carriage
return, vertical tab, form feed; `[0-9a-f]` = lower-case hex digit).
Brace characters are written with the escapes `\x7b` and `\x7d`.
-/

/-- Character list of a string literal. -/
def chars (s : String) : List Char := s.data

/-- Boolean test that `p` is a leading run of `s` (Python `s.startswith(p)`). -/
def isPre : List Char → List Char → Bool
  | [], _ => true
  | _ :: _, [] => false
  | a :: as, b :: bs => a == b && isPre as bs

/-- Boolean substring test (Python `p in s`). -/
def isSub (p : List Char) : List Char → Bool
  | [] => isPre p []
  | c :: rest => isPre p (c :: rest) || isSub p rest

/-- Strip the literal `lit` from the front of `s`, returning the remainder. -/
def stripLit : List Char → List Char → Option (List Char)
  | [], s => some s
  | _ :: _, [] => none
  | a :: as, c :: cs => if c == a then stripLit as cs else none

/-- Python `\s` (ASCII whitespace, as used by the anchor patterns). -/
def isSpaceC (c : Char) : Bool :=
  c == ' ' || c == '\t' || c == '\n' || c == '\r' || c == '\x0b' || c == '\x0c'

/-- Python `\w` (ASCII word character). -/
def isWordChar (c : Char) : Bool := c.isAlphanum || c == '_'

/-- Lower-case hexadecimal digit, the class `[0-9a-f]` of the UUID pattern. -/
def isHexLower (c : Char) : Bool := c.isDigit || ('a' ≤ c && c ≤ 'f')

/-- Open or close brace. -/
def isBrace (c : Char) : Bool := c == '\x7b' || c == '\x7d'

/-- Depth contribution of one character in the balanced-brace scan. -/
def delta (c : Char) : Int :=
  if c = '\x7b' then 1 else if c = '\x7d' then -1 else 0

/-- Total depth change over a character list. -/
def sumDelta : List Char → Int
  | [] => 0
  | c :: rest => delta c + sumDelta rest

/-- Depth-counting loop of `find_balanced_function` (enable-cowork.py,
lines 18-26), on the suffix of the buffer that starts at `start`.  Mirrors
the Python loop exactly: `+1` on every `{`, `-1` on every `}`, and the
scan stops (returning the relative index of the current character) only
when a `}` brings the running depth to zero.  Returns `none` when the
text runs out first. -/
def findBalanced : List Char → Int → Option Nat
  | [], _ => none
  | c :: rest, depth =>
    if c = '\x7b' then
      (findBalanced rest (depth + 1)).map (· + 1)
    else if c = '\x7d' then
      if depth - 1 = 0 then some 0
      else (findBalanced rest (depth - 1)).map (· + 1)
    else
      (findBalanced rest depth).map (· + 1)

/-- `find_balanced_function(content, start)` from enable-cowork.py: the
slice `content[start : i + 1]` where `i` is the absolute index at which
the brace depth first returns to zero, or `None` when there is no such
index before end-of-input. -/
def find_balanced_function (content : List Char) (start : Nat) : Option (List Char) :=
  match findBalanced (content.drop start) 0 with
  | none => none
  | some i => some ((content.drop start).take (i + 1))

/-- Fuel-driven core of Python `s.replace(old, new)` (all occurrences,
left to right, non-overlapping).  The fuel argument only forces
structural termination; `replaceAll` supplies `s.length`, which is
enough fuel because every step consumes at least one character whenever
`old` is non-empty (as it is at every call site of the scripts). -/
def replaceAllF : Nat → List Char → List Char → List Char → List Char
  | 0, _, _, s => s
  | _ + 1, _, _, [] => []
  | fuel + 1, old, new, c :: rest =>
    if old ≠ [] ∧ isPre old (c :: rest) then
      new ++ replaceAllF fuel old new (rest.drop (old.length - 1))
    else
      c :: replaceAllF fuel old new rest

/-- Python `s.replace(old, new)` with a non-empty pattern. -/
def replaceAll (old new s : List Char) : List Char := replaceAllF s.length old new s

/-- Python `s.replace(old, new, 1)`: replace only the first occurrence. -/
def replaceFirstF : List Char → List Char → List Char → List Char
  | _, _, [] => []
  | old, new, c :: rest =>
    if isPre old (c :: rest) then new ++ (c :: rest).drop old.length
    else c :: replaceFirstF old new rest

/-- Leftmost-match search: try the matcher at every suffix of the buffer,
exactly as `re.search` tries every start position from left to right. -/
def searchA {α : Type} (m : List Char → Option α) : List Char → Option α
  | [] => m []
  | c :: rest =>
    match m (c :: rest) with
    | some r => some r
    | none => searchA m rest

/-- Maximal (greedy) run of word characters, required non-empty: the
behaviour of `(\w+)` when the following pattern element cannot match a
word character, which is the case in every pattern of the scripts. -/
def wordRun (s : List Char) : Option (List Char × List Char) :=
  match List.span isWordChar s with
  | (w, rest) => if w = [] then none else some (w, rest)

/-- Maximal non-empty run of whitespace: `\s+` before a non-space. -/
def wsRun (s : List Char) : Option (List Char × List Char) :=
  match List.span isSpaceC s with
  | (w, rest) => if w = [] then none else some (w, rest)

/-- First of two literal alternatives, as `(?:unsupported|unavailable)`. -/
def altStrip (a b s : List Char) : Option (List Char) :=
  match stripLit a s with
  | some r => some r
  | none => stripLit b s

/-- Consume exactly `n` lower-case hex digits. -/
def hexChunk : Nat → List Char → Option (List Char)
  | 0, s => some s
  | _ + 1, [] => none
  | n + 1, c :: cs => if isHexLower c then hexChunk n cs else none

/-! ### enable-cowork.py -/

/-- Attempted match, at the start of `s`, of the anchor pattern of
enable-cowork.py (line 35):
`function\s+(\w+)\(\)\{return\s+process\.platform!=="darwin"\?\{status:"(?:unsupported|unavailable)"`.
Every `\w+`/`\s+` here is followed by a character outside its class, so
the greedy maximal-run reading is exact.  Returns the captured function
name and the length of the matched text. -/
def gateMatchAt (s : List Char) : Option (List Char × Nat) := do
  let s1 ← stripLit (chars "function") s
  let (_, s2) ← wsRun s1
  let (name, s3) ← wordRun s2
  let s4 ← stripLit (chars "()\x7breturn") s3
  let (_, s5) ← wsRun s4
  let s6 ← stripLit (chars "process.platform!==\"darwin\"?\x7bstatus:\"") s5
  let s7 ← altStrip (chars "unsupported") (chars "unavailable") s6
  let s8 ← stripLit (chars "\"") s7
  pure (name, s.length - s8.length)

/-- `pattern.finditer(content)`: all non-overlapping matches, scanning
left to right and resuming after the end of each match.  Every match of
the anchor pattern consumes at least one character, so fuel
`content.length` (supplied by `buildPatches`) never runs out early. -/
def scanGate : Nat → List Char → Nat → List (Nat × List Char × Nat)
  | 0, _, _ => []
  | _ + 1, [], _ => []
  | fuel + 1, c :: rest, pos =>
    match gateMatchAt (c :: rest) with
    | some (name, len) => (pos, name, len) :: scanGate fuel ((c :: rest).drop len) (pos + len)
    | none => scanGate fuel rest (pos + 1)

/-- Replacement text built on line 43:
`function {name}(){return{status:"supported"}}`. -/
def replacementFor (name : List Char) : List Char :=
  chars "function " ++ name ++ chars "()\x7breturn\x7bstatus:\"supported\"\x7d\x7d"

/-- Patch-record collection loop of `patch_file` (lines 38-44): one
record `(func_body, replacement, func_name)` per anchor match whose
balanced body extraction succeeds. -/
def buildPatches (content : List Char) : List (List Char × List Char × List Char) :=
  (scanGate content.length content 0).filterMap fun m =>
    match find_balanced_function content m.1 with
    | some body => some (body, replacementFor m.2.1, m.2.1)
    | none => none

/-- Resolved outcome of one named patch.  The scripts print
`already patched` or `patched`; `notFound` is the third status named by
the specification's Rewriter contract and is needed to state it, though
enable-cowork.py never produces it. -/
inductive PatchStatus
  | applied
  | alreadyApplied
  | notFound
deriving DecidableEq, Repr

/-- Application loop of `patch_file` (lines 50-55), threading the evolving
buffer through the records: a record whose replacement is already a
substring is skipped (`already patched`), otherwise every occurrence of
its original fragment is replaced and the record is reported `patched`. -/
def applyLoop : List (List Char × List Char × List Char) → List Char →
    List Char × List (List Char × PatchStatus)
  | [], content => (content, [])
  | (old, new, name) :: rest, content =>
    if isSub new content then
      let r := applyLoop rest content
      (r.1, (name, PatchStatus.alreadyApplied) :: r.2)
    else
      let r := applyLoop rest (replaceAll old new content)
      (r.1, (name, PatchStatus.applied) :: r.2)

/-- Literal removed by the secondary pass of lines 61-64. -/
def titleLit : List Char := chars "titleBarStyle:\"hidden\","

/-- Outcome of one `patch_file` run: the error path of lines 46-48 (no
records collected) or the write path with the final buffer and the
per-patch statuses. -/
inductive PFResult
  | errNoPatches
  | ok (newContent : List Char) (statuses : List (List Char × PatchStatus))
deriving DecidableEq, Repr

/-- `patch_file` of enable-cowork.py on an in-memory buffer: collect the
patch records, fail when there are none, otherwise run the application
loop, strip `titleBarStyle:"hidden",` when present (its `count` is
non-zero exactly when it is a substring), and reach the write. -/
def patch_file (content : List Char) : PFResult :=
  let patches := buildPatches content
  if patches = [] then PFResult.errNoPatches
  else
    let r := applyLoop patches content
    let c2 := if isSub titleLit r.1 then replaceAll titleLit [] r.1 else r.1
    PFResult.ok c2 r.2

/-- Process exit status produced by `__main__` (line 79):
`sys.exit(0 if success else 1)`. -/
def pfExit : PFResult → Nat
  | PFResult.errNoPatches => 1
  | PFResult.ok _ _ => 0

/-- Content written back to the file, if any: `patch_file` writes only on
the success path (lines 66-67 run after the early `return False`). -/
def pfWrites : PFResult → Option (List Char)
  | PFResult.errNoPatches => none
  | PFResult.ok c _ => some c

/-- Error line printed by the failing run (line 47), up to the file path
that Python interpolates after it. -/
def pfErrMessage : PFResult → Option (List Char)
  | PFResult.errNoPatches => some (chars "ERROR: No platform-gated functions found in ")
  | PFResult.ok _ _ => none

/-! ### inject-cowork-bridge.py -/

/-- Attempted match, at the start of `s`, of the UUID pattern of lines
27-30: `\$eipc_message\$_` followed by the dashed 8-4-4-4-12 run of
lower-case hex digits.  Returns the captured UUID (36 characters). -/
def matchUuidAt (s : List Char) : Option (List Char) :=
  (stripLit (chars "$eipc_message$_") s).bind fun s1 =>
  (hexChunk 8 s1).bind fun s2 =>
  (stripLit (chars "-") s2).bind fun s3 =>
  (hexChunk 4 s3).bind fun s4 =>
  (stripLit (chars "-") s4).bind fun s5 =>
  (hexChunk 4 s5).bind fun s6 =>
  (stripLit (chars "-") s6).bind fun s7 =>
  (hexChunk 4 s7).bind fun s8 =>
  (stripLit (chars "-") s8).bind fun s9 =>
  (hexChunk 12 s9).bind fun _ =>
  some (s1.take 36)

/-- `re.search` for the UUID pattern. -/
def searchUuid (content : List Char) : Option (List Char) := searchA matchUuidAt content

/-- Attempted match of the ipcRenderer pattern of line 39:
`(\w+)\.ipcRenderer\.invoke\("\$eipc_message\$`, capturing the variable. -/
def matchIpcAt (s : List Char) : Option (List Char) :=
  (wordRun s).bind fun wp =>
  (stripLit (chars ".ipcRenderer.invoke(\"$eipc_message$") wp.2).bind fun _ =>
  some wp.1

/-- `re.search` for the ipcRenderer variable. -/
def searchIpc (content : List Char) : Option (List Char) := searchA matchIpcAt content

/-- Attempted match of the splice-anchor pattern of lines 48-50:
`(Object\.keys\((\w+)\)\.forEach\((\w+)=>(\w+)\.contextBridge\.exposeInMainWorld\(\3,\2\[\3\]\)\))`.
Each `\w+` is followed by a non-word character and the back-references
are exact literals, so the match is deterministic.  `anchorTail` consumes
the back-reference tail `,\2[\3]))` after the first `\3`; `matchAnchorAt`
returns the matched literal (group 1) and the settings-object variable
(group 2). -/
def anchorTail (w2 w3 s8 : List Char) : Option (List Char) :=
  (stripLit (chars ",") s8).bind fun s9 =>
  (stripLit w2 s9).bind fun s10 =>
  (stripLit (chars "[") s10).bind fun s11 =>
  (stripLit w3 s11).bind fun s12 =>
  (stripLit (chars "])") s12).bind fun s13 =>
  stripLit (chars ")") s13

def matchAnchorAt (s : List Char) : Option (List Char × List Char) :=
  (stripLit (chars "Object.keys(") s).bind fun s1 =>
  (wordRun s1).bind fun w2p =>
  (stripLit (chars ").forEach(") w2p.2).bind fun s3 =>
  (wordRun s3).bind fun w3p =>
  (stripLit (chars "=>") w3p.2).bind fun s5 =>
  (wordRun s5).bind fun w4p =>
  (stripLit (chars ".contextBridge.exposeInMainWorld(") w4p.2).bind fun s7 =>
  (stripLit w3p.1 s7).bind fun s8 =>
  (anchorTail w2p.1 w3p.1 s8).bind fun s14 =>
  some (s.take (s.length - s14.length), w2p.1)

/-- `re.search` for the splice anchor. -/
def searchAnchor (content : List Char) : Option (List Char × List Char) :=
  searchA matchAnchorAt content

/-- Python `';'.join(parts)` generalised to an arbitrary separator. -/
def joinSep (sep : List Char) : List (List Char) → List Char
  | [] => []
  | [x] => x
  | x :: y :: rest => x ++ sep ++ joinSep sep (y :: rest)

/-- EIPC channel string built on line 61:
`$eipc_message$_{uuid}_$_claude.settings_$_`. -/
def pfxOf (uuid : List Char) : List Char :=
  chars "$eipc_message$_" ++ uuid ++ chars "_$_claude.settings_$_"

/-- Invocation expression built on line 62: `{ipc_var}.ipcRenderer.invoke`. -/
def invOf (ipcVar : List Char) : List Char := ipcVar ++ chars ".ipcRenderer.invoke"

/-- Synthesized injection code of lines 65-95: the four `inject_parts`
f-strings with the recovered identifiers interpolated, joined by `;`. -/
def buildInject (uuid ipcVar objVar : List Char) : List Char :=
  let pfx := pfxOf uuid
  let inv := invOf ipcVar
  joinSep (chars ";")
    [ objVar ++ chars "[\"claude.settings\"]=" ++ objVar ++
        chars "[\"claude.settings\"]||\x7b\x7d",
      objVar ++
        chars "[\"claude.settings\"].ClaudeVM=\x7bsetYukonSilverConfig:function(t)\x7bconsole.log(\"[BRIDGE] ClaudeVM.setYukonSilverConfig called\",t);return " ++
        inv ++ chars "(\"" ++ pfx ++
        chars "ClaudeVM_$_setYukonSilverConfig\",t)\x7d,getSupportStatus:function()\x7bconsole.log(\"[BRIDGE] ClaudeVM.getSupportStatus called\");return " ++
        inv ++ chars "(\"" ++ pfx ++
        chars "ClaudeVM_$_getSupportStatus\")\x7d,getDownloadStatus:function()\x7bconsole.log(\"[BRIDGE] ClaudeVM.getDownloadStatus called\");return " ++
        inv ++ chars "(\"" ++ pfx ++
        chars "ClaudeVM_$_getDownloadStatus\")\x7d,getRunningStatus:function()\x7bconsole.log(\"[BRIDGE] ClaudeVM.getRunningStatus called\");return " ++
        inv ++ chars "(\"" ++ pfx ++
        chars "ClaudeVM_$_getRunningStatus\")\x7d,download:function()\x7bconsole.log(\"[BRIDGE] ClaudeVM.download called\");return " ++
        inv ++ chars "(\"" ++ pfx ++
        chars "ClaudeVM_$_download\")\x7d,start:function()\x7bconsole.log(\"[BRIDGE] ClaudeVM.start called\");return " ++
        inv ++ chars "(\"" ++ pfx ++
        chars "ClaudeVM_$_start\")\x7d,stop:function()\x7bconsole.log(\"[BRIDGE] ClaudeVM.stop called\");return " ++
        inv ++ chars "(\"" ++ pfx ++
        chars "ClaudeVM_$_stop\")\x7d\x7d",
      chars "if(" ++ objVar ++
        chars "[\"claude.settings\"].AppFeatures)\x7b" ++ objVar ++
        chars "[\"claude.settings\"].AppFeatures.getCoworkFeatureState=function()\x7breturn " ++
        inv ++ chars "(\"" ++ pfx ++
        chars "AppFeatures_$_getCoworkFeatureState\")\x7d;" ++ objVar ++
        chars "[\"claude.settings\"].AppFeatures.getYukonSilverStatus=function()\x7breturn " ++
        inv ++ chars "(\"" ++ pfx ++
        chars "AppFeatures_$_getYukonSilverStatus\")\x7d;" ++ objVar ++
        chars "[\"claude.settings\"].AppFeatures.getFeatureFlags=function()\x7breturn " ++
        inv ++ chars "(\"" ++ pfx ++
        chars "AppFeatures_$_getFeatureFlags\")\x7d\x7d",
      objVar ++
        chars "[\"claude.settings\"].LocalAgentModeSessions=\x7bgetAll:function()\x7breturn " ++
        inv ++ chars "(\"" ++ pfx ++
        chars "LocalAgentModeSessions_$_getAll\")\x7d,create:function(t)\x7breturn " ++
        inv ++ chars "(\"" ++ pfx ++
        chars "LocalAgentModeSessions_$_create\",t)\x7d,get:function(t)\x7breturn " ++
        inv ++ chars "(\"" ++ pfx ++
        chars "LocalAgentModeSessions_$_get\",t)\x7d\x7d" ]

/-- Splice of lines 95-99: `inject + ';' + original` substituted for the
first occurrence of the anchor (`content.replace(original, replacement, 1)`). -/
def spliceBefore (content anchor inj : List Char) : List Char :=
  replaceFirstF anchor (inj ++ chars ";" ++ anchor) content

/-- Literal `{ipc_var}.contextBridge.exposeInMainWorld("process",K)` of
line 105. -/
def peLit (ipcVar : List Char) : List Char :=
  ipcVar ++ chars ".contextBridge.exposeInMainWorld(\"process\",K)"

/-- Replacement `K.platform="darwin";K.arch="arm64";` + the literal, from
line 106. -/
def pfLit (ipcVar : List Char) : List Char :=
  chars "K.platform=\"darwin\";K.arch=\"arm64\";" ++ peLit ipcVar

/-- Secondary configuration-token pass of lines 105-109: replace the
first occurrence of the exposure literal only when it is present and the
patched form is not; the Boolean records whether the replacement ran. -/
def processFixPass (ipcVar content : List Char) : List Char × Bool :=
  if isSub (peLit ipcVar) content && !isSub (pfLit ipcVar) content then
    (replaceFirstF (peLit ipcVar) (pfLit ipcVar) content, true)
  else (content, false)

/-- Outcome of one `patch_mainview` run: the idempotence guard of lines
22-24, the three fatal recovery failures, or the write path with the
final buffer. -/
inductive MVResult
  | alreadyPatched
  | errNoUuid
  | errNoIpc
  | errNoAnchor
  | patched (newContent : List Char)
deriving DecidableEq, Repr

/-- `patch_mainview` of inject-cowork-bridge.py on an in-memory buffer,
with the control flow of lines 17-117: the `ClaudeVM` guard first, then
the three recovery passes (each failure returns `False` before any
write), then the splice and the secondary pass, then the write. -/
def patch_mainview (content : List Char) : MVResult :=
  if isSub (chars "ClaudeVM") content then MVResult.alreadyPatched
  else
    match searchUuid content with
    | none => MVResult.errNoUuid
    | some uuid =>
      match searchIpc content with
      | none => MVResult.errNoIpc
      | some ipcVar =>
        match searchAnchor content with
        | none => MVResult.errNoAnchor
        | some og =>
          let inj := buildInject uuid ipcVar og.2
          let c1 := spliceBefore content og.1 inj
          MVResult.patched (processFixPass ipcVar c1).1

/-- Process exit status produced by `__main__` (line 126). -/
def mvExit : MVResult → Nat
  | MVResult.alreadyPatched => 0
  | MVResult.patched _ => 0
  | _ => 1

/-- Content written back to the file, if any: only the fall-through path
of lines 111-112 writes. -/
def mvWrites : MVResult → Option (List Char)
  | MVResult.patched c => some c
  | _ => none

/-- Error line printed by a failing run (lines 32, 41, 54), up to the
file path that Python interpolates after it. -/
def mvErrMessage : MVResult → Option (List Char)
  | MVResult.errNoUuid => some (chars "ERROR: Could not extract EIPC UUID from ")
  | MVResult.errNoIpc => some (chars "ERROR: Could not find ipcRenderer variable in ")
  | MVResult.errNoAnchor =>
      some (chars "ERROR: Could not find contextBridge.exposeInMainWorld pattern in ")
  | _ => none

/-! ### Spec-side view of the injection template (C8)

The specification describes the synthesized code as a fixed template with
placeholders for the three recovered identifiers.  `injectTemplate` is
that template, written from the spec's words as literal runs interleaved
with placeholder tokens; `render` substitutes concrete identifiers into
every placeholder.  Comparing `buildInject` (translated from the source)
with `render … injectTemplate` is the refinement statement of C8. -/

/-- Template token: a literal run or one of the three placeholders. -/
inductive Tok
  | lit (s : List Char)
  | uuid
  | ipc
  | obj
deriving DecidableEq, Repr

/-- Substitute the recovered identifiers into every placeholder. -/
def render (uuid ipcVar objVar : List Char) : List Tok → List Char
  | [] => []
  | Tok.lit s :: ts => s ++ render uuid ipcVar objVar ts
  | Tok.uuid :: ts => uuid ++ render uuid ipcVar objVar ts
  | Tok.ipc :: ts => ipcVar ++ render uuid ipcVar objVar ts
  | Tok.obj :: ts => objVar ++ render uuid ipcVar objVar ts

/-- Token run of one templated EIPC channel invocation: the accessor
placeholder, `.ipcRenderer.invoke("`, the channel prefix with the UUID
placeholder, and the channel suffix with the closing text. -/
def chanToks (suffix : List Char) : List Tok :=
  [Tok.ipc, Tok.lit (chars ".ipcRenderer.invoke"), Tok.lit (chars "(\""),
   Tok.lit (chars "$eipc_message$_"), Tok.uuid,
   Tok.lit (chars "_$_claude.settings_$_"), Tok.lit suffix]

/-- The injection template of the spec: four statements joined by `;`,
every channel string built from the UUID placeholder, every invocation
from the accessor placeholder, every namespace assignment from the
settings-object placeholder. -/
def injectTemplate : List Tok :=
  [Tok.obj, Tok.lit (chars "[\"claude.settings\"]="), Tok.obj,
   Tok.lit (chars "[\"claude.settings\"]||\x7b\x7d"), Tok.lit (chars ";"), Tok.obj,
   Tok.lit (chars "[\"claude.settings\"].ClaudeVM=\x7bsetYukonSilverConfig:function(t)\x7bconsole.log(\"[BRIDGE] ClaudeVM.setYukonSilverConfig called\",t);return ")] ++
  chanToks (chars "ClaudeVM_$_setYukonSilverConfig\",t)\x7d,getSupportStatus:function()\x7bconsole.log(\"[BRIDGE] ClaudeVM.getSupportStatus called\");return ") ++
  chanToks (chars "ClaudeVM_$_getSupportStatus\")\x7d,getDownloadStatus:function()\x7bconsole.log(\"[BRIDGE] ClaudeVM.getDownloadStatus called\");return ") ++
  chanToks (chars "ClaudeVM_$_getDownloadStatus\")\x7d,getRunningStatus:function()\x7bconsole.log(\"[BRIDGE] ClaudeVM.getRunningStatus called\");return ") ++
  chanToks (chars "ClaudeVM_$_getRunningStatus\")\x7d,download:function()\x7bconsole.log(\"[BRIDGE] ClaudeVM.download called\");return ") ++
  chanToks (chars "ClaudeVM_$_download\")\x7d,start:function()\x7bconsole.log(\"[BRIDGE] ClaudeVM.start called\");return ") ++
  chanToks (chars "ClaudeVM_$_start\")\x7d,stop:function()\x7bconsole.log(\"[BRIDGE] ClaudeVM.stop called\");return ") ++
  chanToks (chars "ClaudeVM_$_stop\")\x7d\x7d") ++
  [Tok.lit (chars ";"), Tok.lit (chars "if("), Tok.obj,
   Tok.lit (chars "[\"claude.settings\"].AppFeatures)\x7b"), Tok.obj,
   Tok.lit (chars "[\"claude.settings\"].AppFeatures.getCoworkFeatureState=function()\x7breturn ")] ++
  chanToks (chars "AppFeatures_$_getCoworkFeatureState\")\x7d;") ++
  [Tok.obj,
   Tok.lit (chars "[\"claude.settings\"].AppFeatures.getYukonSilverStatus=function()\x7breturn ")] ++
  chanToks (chars "AppFeatures_$_getYukonSilverStatus\")\x7d;") ++
  [Tok.obj,
   Tok.lit (chars "[\"claude.settings\"].AppFeatures.getFeatureFlags=function()\x7breturn ")] ++
  chanToks (chars "AppFeatures_$_getFeatureFlags\")\x7d\x7d") ++
  [Tok.lit (chars ";"), Tok.obj,
   Tok.lit (chars "[\"claude.settings\"].LocalAgentModeSessions=\x7bgetAll:function()\x7breturn ")] ++
  chanToks (chars "LocalAgentModeSessions_$_getAll\")\x7d,create:function(t)\x7breturn ") ++
  chanToks (chars "LocalAgentModeSessions_$_create\",t)\x7d,get:function(t)\x7breturn ") ++
  chanToks (chars "LocalAgentModeSessions_$_get\",t)\x7d\x7d")

/-- Boolean test that `suf` is a trailing run of `l`. -/
def endsWithB (suf l : List Char) : Bool := isPre suf.reverse l.reverse

/-- Every UUID placeholder of the template sits inside a channel string:
immediately after a literal ending in `$eipc_message$_` and immediately
before a literal starting with `_$_claude.settings_$_`. -/
def uuidSlotsOk : List Tok → Bool
  | Tok.lit a :: Tok.uuid :: Tok.lit b :: rest =>
      endsWithB (chars "$eipc_message$_") a &&
      isPre (chars "_$_claude.settings_$_") b && uuidSlotsOk (Tok.lit b :: rest)
  | Tok.uuid :: _ => false
  | _ :: rest => uuidSlotsOk rest
  | [] => true

/-- Every accessor placeholder of the template is immediately followed by
a literal starting with `.ipcRenderer.invoke`: every invoke call uses the
recovered ipcRenderer variable. -/
def ipcSlotsOk : List Tok → Bool
  | Tok.ipc :: Tok.lit b :: rest =>
      isPre (chars ".ipcRenderer.invoke") b && ipcSlotsOk (Tok.lit b :: rest)
  | Tok.ipc :: _ => false
  | _ :: rest => ipcSlotsOk rest
  | [] => true

/-- Every settings-object placeholder of the template is immediately
followed by a literal starting with `["claude.settings"]`: every
namespace assignment uses the recovered settings-object variable. -/
def objSlotsOk : List Tok → Bool
  | Tok.obj :: Tok.lit b :: rest =>
      isPre (chars "[\"claude.settings\"]") b && objSlotsOk (Tok.lit b :: rest)
  | Tok.obj :: _ => false
  | _ :: rest => objSlotsOk rest
  | [] => true

/-- Balance of a text under the Extractor's depth-counting rule: scanning
with the depth counter of `find_balanced_function`, the depth never goes
negative and returns to zero exactly at the end. -/
def balCheck : List Char → Int → Bool
  | [], d => d == 0
  | c :: rest, d =>
    if d + delta c < 0 then false else balCheck rest (d + delta c)

/-- Brace skeleton of a text. -/
def bracesOf (l : List Char) : List Char := l.filter isBrace

/-- Brace skeleton contributed by the literal runs of a template. -/
def bracesT : List Tok → List Char
  | [] => []
  | Tok.lit s :: ts => bracesOf s ++ bracesT ts
  | _ :: ts => bracesT ts

/-- Scenario buffer of the specification (§8): one platform-gated
function. -/
def gatedBuffer : List Char :=
  chars "function isFoo()\x7breturn process.platform!==\"darwin\"?\x7bstatus:\"unsupported\"\x7d:\x7bstatus:\"supported\"\x7d\x7d"

/-- Expected content of the scenario buffer after the patch. -/
def patchedBuffer : List Char :=
  chars "function isFoo()\x7breturn\x7bstatus:\"supported\"\x7d\x7d"

/-! ## Helper lemmas -/

theorem isPre_append_self (p t : List Char) : isPre p (p ++ t) = true := by
  induction p with
  | nil => rfl
  | cons a as ih => simp [isPre, ih]

theorem replaceAllF_not_sub (fuel : Nat) (old new : List Char) :
    ∀ s, isSub old s = false → replaceAllF fuel old new s = s := by
  induction fuel with
  | zero => intro s _; rfl
  | succ f ih =>
    intro s h
    cases s with
    | nil => rfl
    | cons c rest =>
      have h2 : isPre old (c :: rest) = false ∧ isSub old rest = false := by
        simpa [isSub] using h
      rw [replaceAllF, if_neg, ih rest h2.2]
      rintro ⟨_, hp⟩
      rw [h2.1] at hp
      cases hp

/-- Python `s.replace(old, new)` is the identity when `old` is absent. -/
theorem replaceAll_not_sub (old new s : List Char) (h : isSub old s = false) :
    replaceAll old new s = s :=
  replaceAllF_not_sub s.length old new s h

/-- Python `s.replace(old, new, 1)` splices `new` for the first
occurrence of `old` and leaves everything else untouched. -/
theorem replaceFirstF_split (old new post : List Char) (hold : old ≠ []) :
    ∀ pre, (∀ i, i < pre.length → isPre old ((pre ++ old ++ post).drop i) = false) →
      replaceFirstF old new (pre ++ old ++ post) = pre ++ new ++ post := by
  intro pre
  induction pre with
  | nil =>
    intro _
    cases old with
    | nil => exact absurd rfl hold
    | cons o os =>
      show replaceFirstF (o :: os) new ((o :: os) ++ post) = [] ++ new ++ post
      rw [List.cons_append, replaceFirstF, if_pos]
      · rw [← List.cons_append, List.drop_left]
        simp
      · rw [← List.cons_append]
        exact isPre_append_self (o :: os) post
  | cons c pre ih =>
    intro h
    have h0 : isPre old (c :: (pre ++ old ++ post)) = false := by
      simpa using h 0 (by simp)
    show replaceFirstF old new (c :: (pre ++ old ++ post)) = (c :: pre) ++ new ++ post
    rw [replaceFirstF, if_neg]
    · rw [ih]
      · simp
      · intro i hi
        simpa using h (i + 1) (by simpa using hi)
    · simpa using h0

theorem sumDelta_take_cons (c : Char) (rest : List Char) (n : Nat) :
    sumDelta ((c :: rest).take (n + 1)) = delta c + sumDelta (rest.take n) := by
  simp [List.take_succ_cons, sumDelta]

/-- Characterisation of a successful depth scan: the returned index is
the position of a closing brace, the running depth is `1` just before it
and `0` just after it, and no earlier closing brace brings the depth to
zero — the scan stops at the first such position. -/
theorem findBalanced_some {l : List Char} :
    ∀ {d : Int} {i : Nat}, findBalanced l d = some i →
      i < l.length ∧ l[i]? = some '\x7d' ∧ d + sumDelta (l.take i) = 1 ∧
        d + sumDelta (l.take (i + 1)) = 0 ∧
        ∀ j, j < i → ¬(l[j]? = some '\x7d' ∧ d + sumDelta (l.take (j + 1)) = 0) := by
  induction l with
  | nil => intro d i h; simp [findBalanced] at h
  | cons c rest ih =>
    intro d i h
    by_cases hb : c = '\x7b'
    · subst hb
      rw [findBalanced, if_pos rfl] at h
      obtain ⟨i', hi', rfl⟩ := Option.map_eq_some'.mp h
      obtain ⟨hlen, hchr, h1, h0, hmin⟩ := ih hi'
      have hδ : delta '\x7b' = 1 := by decide
      refine ⟨by simpa using Nat.succ_lt_succ hlen, by simpa using hchr, ?_, ?_, ?_⟩
      · rw [sumDelta_take_cons, hδ]; omega
      · rw [sumDelta_take_cons, hδ]; omega
      · intro j hj
        cases j with
        | zero =>
          rintro ⟨hc, _⟩
          simp at hc
        | succ j' =>
          rintro ⟨hc, hs⟩
          rw [sumDelta_take_cons, hδ] at hs
          exact hmin j' (by omega) ⟨by simpa using hc, by omega⟩
    · by_cases hb2 : c = '\x7d'
      · subst hb2
        rw [findBalanced, if_neg (by decide), if_pos rfl] at h
        have hδ : delta '\x7d' = -1 := by decide
        by_cases hd : d - 1 = 0
        · rw [if_pos hd] at h
          have hi0 : i = 0 := by simpa using h.symm
          subst hi0
          refine ⟨by simp, by simp, by simp [sumDelta]; omega, ?_, ?_⟩
          · rw [sumDelta_take_cons, hδ]; simp [sumDelta]; omega
          · intro j hj; omega
        · rw [if_neg hd] at h
          obtain ⟨i', hi', rfl⟩ := Option.map_eq_some'.mp h
          obtain ⟨hlen, hchr, h1, h0, hmin⟩ := ih hi'
          refine ⟨by simpa using Nat.succ_lt_succ hlen, by simpa using hchr, ?_, ?_, ?_⟩
          · rw [sumDelta_take_cons, hδ]; omega
          · rw [sumDelta_take_cons, hδ]; omega
          · intro j hj
            cases j with
            | zero =>
              rintro ⟨_, hs⟩
              rw [sumDelta_take_cons, hδ] at hs
              simp [sumDelta] at hs
              omega
            | succ j' =>
              rintro ⟨hc, hs⟩
              rw [sumDelta_take_cons, hδ] at hs
              exact hmin j' (by omega) ⟨by simpa using hc, by omega⟩
      · rw [findBalanced, if_neg hb, if_neg hb2] at h
        obtain ⟨i', hi', rfl⟩ := Option.map_eq_some'.mp h
        obtain ⟨hlen, hchr, h1, h0, hmin⟩ := ih hi'
        have hδ : delta c = 0 := by simp [delta, hb, hb2]
        refine ⟨by simpa using Nat.succ_lt_succ hlen, by simpa using hchr, ?_, ?_, ?_⟩
        · rw [sumDelta_take_cons, hδ]; omega
        · rw [sumDelta_take_cons, hδ]; omega
        · intro j hj
          cases j with
          | zero =>
            rintro ⟨hc, _⟩
            simp at hc
            exact hb2 hc
          | succ j' =>
            rintro ⟨hc, hs⟩
            rw [sumDelta_take_cons, hδ] at hs
            exact hmin j' (by omega) ⟨by simpa using hc, by omega⟩

/-- When no closing brace ever brings the scanned depth to zero, the
extraction fails. -/
theorem find_balanced_none (content : List Char) (start : Nat)
    (h : ∀ e, e < (content.drop start).length →
      ¬((content.drop start)[e]? = some '\x7d' ∧
        sumDelta ((content.drop start).take (e + 1)) = 0)) :
    find_balanced_function content start = none := by
  unfold find_balanced_function
  cases hfb : findBalanced (content.drop start) 0 with
  | none => rfl
  | some i =>
    obtain ⟨hlen, hchr, _, h0, _⟩ := findBalanced_some hfb
    exact absurd ⟨hchr, by simpa using h0⟩ (h i hlen)

theorem findBalanced_openRun (k : Nat) (t : List Char) :
    ∀ d : Int, findBalanced (List.replicate k '\x7b' ++ t) d =
      (findBalanced t (d + k)).map (· + k) := by
  induction k with
  | zero =>
    intro d
    simp only [List.replicate_zero, List.nil_append, Nat.cast_zero, Int.add_zero]
    cases findBalanced t d <;> simp
  | succ k ih =>
    intro d
    rw [List.replicate_succ, List.cons_append, findBalanced, if_pos rfl, ih]
    have hc : d + 1 + (k : Int) = d + ((k + 1 : Nat) : Int) := by push_cast; ring
    rw [hc]
    cases findBalanced t (d + ((k + 1 : Nat) : Int)) with
    | none => simp
    | some v => simp; omega

theorem findBalanced_closeRun (k : Nat) (t : List Char) :
    ∀ dn : Nat, 1 ≤ dn → dn ≤ k →
      findBalanced (List.replicate k '\x7d' ++ t) (dn : Int) = some (dn - 1) := by
  induction k with
  | zero => intro dn h1 h2; omega
  | succ k ih =>
    intro dn h1 h2
    rw [List.replicate_succ, List.cons_append, findBalanced, if_neg (by decide), if_pos rfl]
    by_cases hd : dn = 1
    · subst hd
      norm_num
    · rw [if_neg (by omega)]
      have hcast : (dn : Int) - 1 = ((dn - 1 : Nat) : Int) := by omega
      rw [hcast, ih (dn - 1) (by omega) (by omega)]
      simp
      omega

/-! ## Claim theorems -/

/-- C2: for every buffer containing `n ≥ 1` correctly nested brace pairs
beginning at the start offset (here the concentric pairs
`{…{ }…}` with arbitrary text before and after), `find_balanced_function`
returns exactly the text of those pairs: the fragment runs from the start
offset through the closing brace matching the outermost opening brace
(the fragment has length `2 * n`, so its end offset is
`start + 2 * n - 1`, the offset of that matching closer). -/
theorem extractor_nested (pre rest : List Char) (n : Nat) (h : 1 ≤ n) :
    find_balanced_function
        (pre ++ (List.replicate n '\x7b' ++ List.replicate n '\x7d') ++ rest) pre.length
      = some (List.replicate n '\x7b' ++ List.replicate n '\x7d') ∧
    (List.replicate n '\x7b' ++ List.replicate n '\x7d').length = 2 * n := by
  have hlen : (List.replicate n '\x7b' ++ List.replicate n '\x7d').length = 2 * n := by
    simp [List.length_append]
    omega
  refine ⟨?_, hlen⟩
  unfold find_balanced_function
  have hdrop :
      (pre ++ (List.replicate n '\x7b' ++ List.replicate n '\x7d') ++ rest).drop pre.length
        = (List.replicate n '\x7b' ++ List.replicate n '\x7d') ++ rest := by
    rw [List.append_assoc, List.drop_left]
  rw [hdrop, List.append_assoc, findBalanced_openRun]
  have h0 : ((0 : Int) + (n : Int)) = ((n : Nat) : Int) := by omega
  rw [h0, findBalanced_closeRun n _ n h le_rfl]
  have h2 : (n - 1) + (n : Nat) + 1 = 2 * n := by omega
  have htake :
      ((List.replicate n '\x7b' ++ (List.replicate n '\x7d' ++ rest))).take (2 * n)
        = List.replicate n '\x7b' ++ List.replicate n '\x7d' := by
    rw [← List.append_assoc, List.take_left' hlen]
  simp only [Option.map_some']
  rw [h2, htake]

/-- C2 witness: two nested pairs after a two-character lead-in. -/
theorem extractor_nested_witness :
    find_balanced_function
        (chars "ab" ++ (List.replicate 2 '\x7b' ++ List.replicate 2 '\x7d') ++ chars "cd")
        (chars "ab").length
      = some (List.replicate 2 '\x7b' ++ List.replicate 2 '\x7d') ∧
    (List.replicate 2 '\x7b' ++ List.replicate 2 '\x7d').length = 2 * 2 :=
  extractor_nested (chars "ab") (chars "cd") 2 (by omega)

/-- C3: on a buffer whose scanned region (from the start offset onward)
contains an opening brace but where the running depth is never brought
back to zero by a closing brace before end-of-input — an unmatched
opening delimiter — `find_balanced_function` returns `none` rather than
any out-of-bounds or truncated fragment. -/
theorem extractor_unmatched (content : List Char) (start : Nat)
    (_hopen : '\x7b' ∈ content.drop start)
    (hnostop : ∀ k, k < (content.drop start).length →
      ¬((content.drop start)[k]? = some '\x7d' ∧
        sumDelta ((content.drop start).take (k + 1)) = 0)) :
    find_balanced_function content start = none :=
  find_balanced_none content start hnostop

/-- C3 witness: a buffer consisting of two unmatched opening braces. -/
theorem extractor_unmatched_witness :
    '\x7b' ∈ (chars "ab\x7b\x7b").drop 0 ∧
    find_balanced_function (chars "ab\x7b\x7b") 0 = none :=
  ⟨by decide, extractor_unmatched (chars "ab\x7b\x7b") 0 (by decide) (by decide)⟩

/-- C9 counterexample: the claim asserts the depth is nonzero at every
offset strictly between the start and end offsets.  On the buffer
`ab{}` from start offset `0` the extractor returns the fragment `ab{}`
(end offset `3`), yet at offset `1` — strictly between `0` and `3` — the
depth is `0`, because the scan walks over non-brace characters at depth
zero before the first opening brace. -/
theorem extractor_depth_counterexample :
    find_balanced_function (chars "ab\x7b\x7d") 0 = some (chars "ab\x7b\x7d") ∧
    (chars "ab\x7b\x7d").length = 4 ∧
    sumDelta ((chars "ab\x7b\x7d").take (1 + 1)) = 0 ∧
    ¬(∀ j, j < 3 → 0 < j → sumDelta ((chars "ab\x7b\x7d").take (j + 1)) ≠ 0) := by
  refine ⟨by decide, by decide, by decide, by decide⟩

/-- C9 (amended): when `find_balanced_function` returns a fragment, the
fragment is the scanned region up to an end index `e` holding a closing
brace; the depth is `1` immediately before `e`, `0` immediately after
processing `e`, and no closing brace strictly before `e` brings the depth
to zero (so the end is the first zero-return of the depth, which has
become positive by then); when no index of the scanned region satisfies
the zero-return condition, the result is absent. -/
theorem extractor_depth_invariant :
    (∀ (content : List Char) (start : Nat) (frag : List Char),
      find_balanced_function content start = some frag →
      ∃ e, e < (content.drop start).length ∧
        frag = (content.drop start).take (e + 1) ∧
        (content.drop start)[e]? = some '\x7d' ∧
        sumDelta ((content.drop start).take e) = 1 ∧
        sumDelta ((content.drop start).take (e + 1)) = 0 ∧
        ∀ j, j < e → ¬((content.drop start)[j]? = some '\x7d' ∧
          sumDelta ((content.drop start).take (j + 1)) = 0)) ∧
    (∀ (content : List Char) (start : Nat),
      (∀ e, e < (content.drop start).length →
        ¬((content.drop start)[e]? = some '\x7d' ∧
          sumDelta ((content.drop start).take (e + 1)) = 0)) →
      find_balanced_function content start = none) := by
  constructor
  · intro content start frag h
    unfold find_balanced_function at h
    cases hfb : findBalanced (content.drop start) 0 with
    | none => rw [hfb] at h; cases h
    | some i =>
      rw [hfb] at h
      obtain ⟨hlen, hchr, h1, h0, hmin⟩ := findBalanced_some hfb
      refine ⟨i, hlen, by simpa using h.symm, hchr, by omega, by omega, ?_⟩
      intro j hj hcontra
      exact hmin j hj ⟨hcontra.1, by omega⟩
  · exact find_balanced_none

/-- C9 witness: the invariant instantiated on the fragment returned for
the buffer `ab{}` at start offset `0`. -/
theorem extractor_depth_invariant_witness :
    ∃ e, e < ((chars "ab\x7b\x7d").drop 0).length ∧
      chars "ab\x7b\x7d" = ((chars "ab\x7b\x7d").drop 0).take (e + 1) ∧
      ((chars "ab\x7b\x7d").drop 0)[e]? = some '\x7d' ∧
      sumDelta (((chars "ab\x7b\x7d").drop 0).take e) = 1 ∧
      sumDelta (((chars "ab\x7b\x7d").drop 0).take (e + 1)) = 0 ∧
      ∀ j, j < e → ¬(((chars "ab\x7b\x7d").drop 0)[j]? = some '\x7d' ∧
        sumDelta (((chars "ab\x7b\x7d").drop 0).take (j + 1)) = 0) :=
  extractor_depth_invariant.1 (chars "ab\x7b\x7d") 0 (chars "ab\x7b\x7d") (by decide)

/-- C5 counterexample: the claim asserts a patch whose original fragment
is absent resolves to `NotFound`.  In the code (lines 50-55) there is no
`NotFound` branch: with `abc` absent from the buffer `xyz` (and the
replacement `def` absent too), the loop still reports the patch as
applied (`patched`), though the buffer is unchanged. -/
theorem rewriter_notfound_counterexample :
    isSub (chars "abc") (chars "xyz") = false ∧
    isSub (chars "def") (chars "xyz") = false ∧
    applyLoop [(chars "abc", chars "def", chars "f")] (chars "xyz")
      = (chars "xyz", [(chars "f", PatchStatus.applied)]) ∧
    ¬((applyLoop [(chars "abc", chars "def", chars "f")] (chars "xyz")).2
      = [(chars "f", PatchStatus.notFound)]) := by
  refine ⟨by decide, by decide, by decide, by decide⟩

/-- C5 (amended): for every patch record whose expected original fragment
is absent from the current buffer (and whose replacement is absent as
well, so the already-applied branch does not fire), the rewriter leaves
the buffer content-identical to its input — `content.replace` with an
absent pattern is the identity — but reports the patch as `patched`
(Applied); enable-cowork.py has no NotFound status. -/
theorem rewriter_missing_original (content old new name : List Char)
    (h1 : isSub old content = false) (h2 : isSub new content = false) :
    applyLoop [(old, new, name)] content
      = (content, [(name, PatchStatus.applied)]) := by
  rw [applyLoop, if_neg]
  · rw [replaceAll_not_sub old new content h1]
    rfl
  · simp [h2]

/-- C5 witness: the amended statement at a concrete absent fragment. -/
theorem rewriter_missing_original_witness :
    isSub (chars "uvw") (chars "qrs") = false ∧
    applyLoop [(chars "uvw", chars "xyz", chars "g")] (chars "qrs")
      = (chars "qrs", [(chars "g", PatchStatus.applied)]) :=
  ⟨by decide, rewriter_missing_original (chars "qrs") (chars "uvw") (chars "xyz")
    (chars "g") (by decide) (by decide)⟩

/-- C6: for every buffer and patch record, when the replacement fragment
is already present in the buffer, the function rewriter of
enable-cowork.py resolves the patch to AlreadyApplied and leaves the
buffer unchanged — the presence check is the guard of the loop body, so
no substitution of the original fragment is attempted regardless of
whether it occurs; and, independently, for every buffer in which the
patched form of the secondary configuration-token pass of
inject-cowork-bridge.py (the `window.process` platform fix) is already
present, that pass performs no substitution and leaves the buffer
unchanged. -/
theorem idempotence_first :
    (∀ content old new name : List Char, isSub new content = true →
      applyLoop [(old, new, name)] content
        = (content, [(name, PatchStatus.alreadyApplied)])) ∧
    (∀ ipcVar content : List Char, isSub (pfLit ipcVar) content = true →
      processFixPass ipcVar content = (content, false)) := by
  constructor
  · intro content old new name h1
    rw [applyLoop, if_pos]
    · rfl
    · simp [h1]
  · intro ipcVar content h2
    rw [processFixPass, if_neg]
    simp [h2]

/-- C6 witness: the rewriter half on a buffer containing only the
replacement fragment (no secondary-pass literal anywhere near it), and
the secondary-pass half on a buffer that is exactly the patched
process-exposure form. -/
theorem idempotence_first_witness :
    (isSub (chars "def") (chars "xdefy") = true ∧
      applyLoop [(chars "abc", chars "def", chars "f")] (chars "xdefy")
        = (chars "xdefy", [(chars "f", PatchStatus.alreadyApplied)])) ∧
    (isSub (pfLit (chars "o")) (pfLit (chars "o")) = true ∧
      processFixPass (chars "o") (pfLit (chars "o")) = (pfLit (chars "o"), false)) :=
  ⟨⟨by decide, idempotence_first.1 (chars "xdefy") (chars "abc") (chars "def")
      (chars "f") (by decide)⟩,
    ⟨by decide, idempotence_first.2 (chars "o") (pfLit (chars "o")) (by decide)⟩⟩

/-- C7: when the buffer splits as `pre ++ anchor ++ post` at the first
occurrence of the anchor literal (no earlier position starts an
occurrence), the splice of lines 95-99 produces exactly
`pre ++ synthesized ++ ";" ++ anchor ++ post`: the synthesized code and
a `;` separator are inserted immediately before that single occurrence
by one string operation, and the rest of the buffer is unchanged. -/
theorem splice_before_anchor (pre post anchor inj : List Char) (hne : anchor ≠ [])
    (hfirst : ∀ i, i < pre.length → isPre anchor ((pre ++ anchor ++ post).drop i) = false) :
    spliceBefore (pre ++ anchor ++ post) anchor inj
      = pre ++ (inj ++ chars ";" ++ anchor) ++ post := by
  unfold spliceBefore
  exact replaceFirstF_split anchor (inj ++ chars ";" ++ anchor) post hne pre hfirst

/-- C7 witness: the splice at a concrete first occurrence. -/
theorem splice_before_anchor_witness :
    spliceBefore (chars "ab" ++ chars "XY" ++ chars "cd") (chars "XY") (chars "II")
      = chars "ab" ++ (chars "II" ++ chars ";" ++ chars "XY") ++ chars "cd" :=
  splice_before_anchor (chars "ab") (chars "cd") (chars "XY") (chars "II")
    (by decide) (by decide)

/-- C10: any buffer containing the substring `ClaudeVM` — whether or not
the actual bridge code is present — makes `patch_mainview` stop at the
guard of lines 22-24: the result is the already-patched outcome, the
process exits 0, and nothing is written back, so the file is unchanged;
by the definition of `patch_mainview` this path precedes every
identifier-recovery and injection step. -/
theorem mainview_guard (content : List Char)
    (h : isSub (chars "ClaudeVM") content = true) :
    patch_mainview content = MVResult.alreadyPatched ∧
    mvExit (patch_mainview content) = 0 ∧
    mvWrites (patch_mainview content) = none := by
  have hres : patch_mainview content = MVResult.alreadyPatched := by
    rw [patch_mainview, if_pos]
    simp [h]
  exact ⟨hres, by rw [hres]; rfl, by rw [hres]; rfl⟩

/-- C10 witness: a buffer containing `ClaudeVM` without any bridge code. -/
theorem mainview_guard_witness :
    isSub (chars "ClaudeVM") (chars "xxClaudeVMyy") = true ∧
    patch_mainview (chars "xxClaudeVMyy") = MVResult.alreadyPatched ∧
    mvExit (patch_mainview (chars "xxClaudeVMyy")) = 0 ∧
    mvWrites (patch_mainview (chars "xxClaudeVMyy")) = none :=
  ⟨by decide, mainview_guard (chars "xxClaudeVMyy") (by decide)⟩

/-- C4: each pipeline-level failure aborts the run before any write, with
a nonzero exit status and a message naming the missing structural
element: (1) enable-cowork with no anchor matches at all returns the
error result, exit 1, writes nothing, and prints the no-platform-gated-
functions message; inject-cowork-bridge (on a buffer not already
patched) with (2) no recoverable EIPC UUID, (3) no ipcRenderer variable,
or (4) no exposeInMainWorld splice point returns the corresponding error
result, exit 1, writes nothing, and prints the message naming that
element. -/
theorem pipeline_failures :
    (∀ content : List Char, scanGate content.length content 0 = [] →
      patch_file content = PFResult.errNoPatches ∧
      pfExit (patch_file content) = 1 ∧
      pfWrites (patch_file content) = none ∧
      pfErrMessage (patch_file content)
        = some (chars "ERROR: No platform-gated functions found in ")) ∧
    (∀ content : List Char, isSub (chars "ClaudeVM") content = false →
      searchUuid content = none →
      patch_mainview content = MVResult.errNoUuid ∧
      mvExit (patch_mainview content) = 1 ∧
      mvWrites (patch_mainview content) = none ∧
      mvErrMessage (patch_mainview content)
        = some (chars "ERROR: Could not extract EIPC UUID from ")) ∧
    (∀ (content uuid : List Char), isSub (chars "ClaudeVM") content = false →
      searchUuid content = some uuid → searchIpc content = none →
      patch_mainview content = MVResult.errNoIpc ∧
      mvExit (patch_mainview content) = 1 ∧
      mvWrites (patch_mainview content) = none ∧
      mvErrMessage (patch_mainview content)
        = some (chars "ERROR: Could not find ipcRenderer variable in ")) ∧
    (∀ (content uuid ipcVar : List Char), isSub (chars "ClaudeVM") content = false →
      searchUuid content = some uuid → searchIpc content = some ipcVar →
      searchAnchor content = none →
      patch_mainview content = MVResult.errNoAnchor ∧
      mvExit (patch_mainview content) = 1 ∧
      mvWrites (patch_mainview content) = none ∧
      mvErrMessage (patch_mainview content)
        = some (chars "ERROR: Could not find contextBridge.exposeInMainWorld pattern in ")) := by
  refine ⟨?_, ?_, ?_, ?_⟩
  · intro content h
    have hres : patch_file content = PFResult.errNoPatches := by
      rw [patch_file]
      have hp : buildPatches content = [] := by
        rw [buildPatches, h]
        rfl
      rw [if_pos hp]
    exact ⟨hres, by rw [hres]; rfl, by rw [hres]; rfl, by rw [hres]; rfl⟩
  · intro content hcv hu
    have hres : patch_mainview content = MVResult.errNoUuid := by
      rw [patch_mainview, if_neg (by simp [hcv]), hu]
    exact ⟨hres, by rw [hres]; rfl, by rw [hres]; rfl, by rw [hres]; rfl⟩
  · intro content uuid hcv hu hi
    have hres : patch_mainview content = MVResult.errNoIpc := by
      rw [patch_mainview, if_neg (by simp [hcv]), hu, hi]
    exact ⟨hres, by rw [hres]; rfl, by rw [hres]; rfl, by rw [hres]; rfl⟩
  · intro content uuid ipcVar hcv hu hi ha
    have hres : patch_mainview content = MVResult.errNoAnchor := by
      rw [patch_mainview, if_neg (by simp [hcv]), hu, hi, ha]
    exact ⟨hres, by rw [hres]; rfl, by rw [hres]; rfl, by rw [hres]; rfl⟩

/-- C4 witness: the four failure scenarios at concrete buffers — a buffer
with no anchors at all, a buffer with no EIPC UUID, a buffer with a UUID
but no ipcRenderer accessor, and a buffer with both but no
exposeInMainWorld splice point. -/
theorem pipeline_failures_witness :
    (scanGate (chars "hello").length (chars "hello") 0 = [] ∧
      patch_file (chars "hello") = PFResult.errNoPatches ∧
      pfExit (patch_file (chars "hello")) = 1 ∧
      pfWrites (patch_file (chars "hello")) = none ∧
      pfErrMessage (patch_file (chars "hello"))
        = some (chars "ERROR: No platform-gated functions found in ")) ∧
    (patch_mainview (chars "hello") = MVResult.errNoUuid ∧
      mvExit (patch_mainview (chars "hello")) = 1 ∧
      mvWrites (patch_mainview (chars "hello")) = none ∧
      mvErrMessage (patch_mainview (chars "hello"))
        = some (chars "ERROR: Could not extract EIPC UUID from ")) ∧
    (patch_mainview (chars "$eipc_message$_12345678-1234-1234-1234-123456789abc")
        = MVResult.errNoIpc ∧
      mvExit (patch_mainview (chars "$eipc_message$_12345678-1234-1234-1234-123456789abc")) = 1 ∧
      mvWrites (patch_mainview (chars "$eipc_message$_12345678-1234-1234-1234-123456789abc"))
        = none ∧
      mvErrMessage (patch_mainview (chars "$eipc_message$_12345678-1234-1234-1234-123456789abc"))
        = some (chars "ERROR: Could not find ipcRenderer variable in ")) ∧
    (patch_mainview (chars "o.ipcRenderer.invoke(\"$eipc_message$_12345678-1234-1234-1234-123456789abc")
        = MVResult.errNoAnchor ∧
      mvExit (patch_mainview (chars "o.ipcRenderer.invoke(\"$eipc_message$_12345678-1234-1234-1234-123456789abc")) = 1 ∧
      mvWrites (patch_mainview (chars "o.ipcRenderer.invoke(\"$eipc_message$_12345678-1234-1234-1234-123456789abc"))
        = none ∧
      mvErrMessage (patch_mainview (chars "o.ipcRenderer.invoke(\"$eipc_message$_12345678-1234-1234-1234-123456789abc"))
        = some (chars "ERROR: Could not find contextBridge.exposeInMainWorld pattern in ")) := by
  refine ⟨⟨by decide, pipeline_failures.1 (chars "hello") (by decide)⟩,
    pipeline_failures.2.1 (chars "hello") (by decide) (by decide),
    pipeline_failures.2.2.1 (chars "$eipc_message$_12345678-1234-1234-1234-123456789abc")
      (chars "12345678-1234-1234-1234-123456789abc") (by decide) (by decide) (by decide),
    pipeline_failures.2.2.2 (chars "o.ipcRenderer.invoke(\"$eipc_message$_12345678-1234-1234-1234-123456789abc")
      (chars "12345678-1234-1234-1234-123456789abc") (chars "o")
      (by decide) (by decide) (by decide) (by decide)⟩

set_option maxRecDepth 400000 in
/-- C1 counterexample: on the specification's own scenario buffer the
first enable-cowork run succeeds (output `patchedBuffer`, the single
patch Applied, exit 0), but the second run on that output does not
report AlreadyApplied with a zero exit: the anchor pattern no longer
matches the patched text, so the run takes the no-anchor error path and
exits 1. -/
theorem pipeline_rerun_counterexample :
    patch_file gatedBuffer
      = PFResult.ok patchedBuffer [(chars "isFoo", PatchStatus.applied)] ∧
    pfExit (patch_file gatedBuffer) = 0 ∧
    patch_file patchedBuffer = PFResult.errNoPatches ∧
    pfExit (patch_file patchedBuffer) ≠ 0 := by
  refine ⟨by decide, by decide, by decide, by decide⟩

set_option maxRecDepth 400000 in
/-- C1 (amended): on the scenario buffer containing a platform-gated
function, the first enable-cowork run applies its patch and exits 0
writing `patchedBuffer`; the second run on that output yields zero
newly-Applied patches and leaves the content byte-identical — but only
because it finds no anchors, reports the no-anchor error, exits nonzero
and performs no write, rather than reporting AlreadyApplied with a zero
exit. -/
theorem pipeline_rerun_scenario :
    patch_file gatedBuffer
      = PFResult.ok patchedBuffer [(chars "isFoo", PatchStatus.applied)] ∧
    pfExit (patch_file gatedBuffer) = 0 ∧
    pfWrites (patch_file gatedBuffer) = some patchedBuffer ∧
    patch_file patchedBuffer = PFResult.errNoPatches ∧
    pfExit (patch_file patchedBuffer) = 1 ∧
    pfWrites (patch_file patchedBuffer) = none ∧
    pfErrMessage (patch_file patchedBuffer)
      = some (chars "ERROR: No platform-gated functions found in ") := by
  refine ⟨by decide, by decide, by decide, by decide, by decide, by decide, by decide⟩

theorem searchA_some {α : Type} (m : List Char → Option α) :
    ∀ (l : List Char) (r : α), searchA m l = some r → ∃ s, m s = some r := by
  intro l
  induction l with
  | nil => intro r h; exact ⟨[], h⟩
  | cons c rest ih =>
    intro r h
    rw [searchA] at h
    cases hm : m (c :: rest) with
    | some v =>
      rw [hm] at h
      exact ⟨c :: rest, hm.trans h⟩
    | none =>
      rw [hm] at h
      exact ih r h

theorem stripLit_split : ∀ (lit s r : List Char), stripLit lit s = some r → s = lit ++ r := by
  intro lit
  induction lit with
  | nil =>
    intro s r h
    simp only [stripLit, Option.some.injEq] at h
    simp [h]
  | cons a as ih =>
    intro s r h
    cases s with
    | nil => simp [stripLit] at h
    | cons c cs =>
      rw [stripLit] at h
      by_cases hc : c == a
      · rw [if_pos hc] at h
        have hca : c = a := by simpa using hc
        subst hca
        rw [List.cons_append, ih cs r h]
      · rw [if_neg hc] at h
        cases h

theorem hexChunk_split : ∀ (n : Nat) (s r : List Char), hexChunk n s = some r →
    ∃ w, s = w ++ r ∧ w.length = n ∧ ∀ c ∈ w, isHexLower c = true := by
  intro n
  induction n with
  | zero =>
    intro s r h
    simp only [hexChunk, Option.some.injEq] at h
    exact ⟨[], by simp [h], rfl, by simp⟩
  | succ n ih =>
    intro s r h
    cases s with
    | nil => simp [hexChunk] at h
    | cons c cs =>
      rw [hexChunk] at h
      by_cases hc : isHexLower c = true
      · rw [if_pos hc] at h
        obtain ⟨w, hw, hl, hall⟩ := ih cs r h
        refine ⟨c :: w, by simp [hw], by simp [hl], ?_⟩
        intro x hx
        rcases List.mem_cons.mp hx with h1 | h2
        · subst h1; exact hc
        · exact hall x h2
      · rw [if_neg hc] at h
        cases h

theorem wordRun_some {s : List Char} {wp : List Char × List Char}
    (h : wordRun s = some wp) : wp.1 ≠ [] ∧ ∀ c ∈ wp.1, isWordChar c = true := by
  rw [wordRun, List.span_eq_take_drop] at h
  dsimp only at h
  by_cases he : s.takeWhile isWordChar = []
  · rw [if_pos he] at h
    cases h
  · rw [if_neg he] at h
    have hw : wp.1 = s.takeWhile isWordChar := by
      have h2 := (Option.some.injEq _ _).mp h
      rw [← h2]
    refine ⟨by rw [hw]; exact he, ?_⟩
    intro c hc
    rw [hw] at hc
    exact List.mem_takeWhile_imp hc

/-- Every character of a recovered UUID is a lower-case hex digit or a
dash: the captured text is exactly the dashed hex run the pattern
demands. -/
theorem matchUuidAt_some_hex {s u : List Char} (h : matchUuidAt s = some u) :
    ∀ c ∈ u, isHexLower c = true ∨ c = '-' := by
  rw [matchUuidAt] at h
  simp only [Option.bind_eq_some, Option.some.injEq] at h
  obtain ⟨s1, h1, s2, h2, s3, h3, s4, h4, s5, h5, s6, h6, s7, h7, s8, h8, s9, h9, sA, hA, hu⟩ := h
  obtain ⟨w8, hw8, hl8, hx8⟩ := hexChunk_split 8 s1 s2 h2
  have e3 := stripLit_split _ _ _ h3
  obtain ⟨wa, hwa, hla, hxa⟩ := hexChunk_split 4 s3 s4 h4
  have e5 := stripLit_split _ _ _ h5
  obtain ⟨wb, hwb, hlb, hxb⟩ := hexChunk_split 4 s5 s6 h6
  have e7 := stripLit_split _ _ _ h7
  obtain ⟨wc, hwc, hlc, hxc⟩ := hexChunk_split 4 s7 s8 h8
  have e9 := stripLit_split _ _ _ h9
  obtain ⟨wd, hwd, hld, hxd⟩ := hexChunk_split 12 s9 sA hA
  have hs1 : s1 = (w8 ++ chars "-" ++ wa ++ chars "-" ++ wb ++ chars "-" ++ wc ++
      chars "-" ++ wd) ++ sA := by
    rw [hw8, e3, hwa, e5, hwb, e7, hwc, e9, hwd]
    simp [List.append_assoc]
  have hlw : (w8 ++ chars "-" ++ wa ++ chars "-" ++ wb ++ chars "-" ++ wc ++
      chars "-" ++ wd).length = 36 := by
    simp [List.length_append, hl8, hla, hlb, hlc, hld, chars]
  have hu2 : u = w8 ++ chars "-" ++ wa ++ chars "-" ++ wb ++ chars "-" ++ wc ++
      chars "-" ++ wd := by
    rw [← hu, hs1, List.take_left' hlw]
  intro c hc
  rw [hu2] at hc
  simp only [List.mem_append] at hc
  have hdash : ∀ x ∈ chars "-", isHexLower x = true ∨ x = '-' := by decide
  rcases hc with ((((((((hc | hc) | hc) | hc) | hc) | hc) | hc) | hc) | hc)
  · exact Or.inl (hx8 c hc)
  · exact hdash c hc
  · exact Or.inl (hxa c hc)
  · exact hdash c hc
  · exact Or.inl (hxb c hc)
  · exact hdash c hc
  · exact Or.inl (hxc c hc)
  · exact hdash c hc
  · exact Or.inl (hxd c hc)

/-- The recovered ipcRenderer accessor variable is a non-empty word-character run. -/
theorem matchIpcAt_some_word {s w : List Char} (h : matchIpcAt s = some w) :
    w ≠ [] ∧ ∀ c ∈ w, isWordChar c = true := by
  rw [matchIpcAt] at h
  simp only [Option.bind_eq_some, Option.some.injEq] at h
  obtain ⟨wp, hwp, _, _, hw⟩ := h
  obtain ⟨hne, hall⟩ := wordRun_some hwp
  rw [← hw]
  exact ⟨hne, hall⟩

/-- The recovered settings-object variable is a non-empty word-character run. -/
theorem matchAnchorAt_some_word {s : List Char} {p : List Char × List Char}
    (h : matchAnchorAt s = some p) : p.2 ≠ [] ∧ ∀ c ∈ p.2, isWordChar c = true := by
  rw [matchAnchorAt] at h
  simp only [Option.bind_eq_some, Option.some.injEq] at h
  obtain ⟨s1, h1, w2p, hw2, s3, h3, w3p, hw3, s5, h5, w4p, hw4, s7, h7, s8, h8, s14, h14, hp⟩ := h
  obtain ⟨hne, hall⟩ := wordRun_some hw2
  rw [← hp]
  exact ⟨hne, hall⟩

theorem hexdash_not_brace {c : Char} (h : isHexLower c = true ∨ c = '-') :
    isBrace c = false := by
  cases hb : isBrace c
  · rfl
  · exfalso
    have h2 : c = '\x7b' ∨ c = '\x7d' := by simpa [isBrace] using hb
    rcases h2 with rfl | rfl
    · rcases h with h | h
      · exact absurd h (by decide)
      · exact absurd h (by decide)
    · rcases h with h | h
      · exact absurd h (by decide)
      · exact absurd h (by decide)

theorem word_not_brace {c : Char} (h : isWordChar c = true) : isBrace c = false := by
  cases hb : isBrace c
  · rfl
  · exfalso
    have h2 : c = '\x7b' ∨ c = '\x7d' := by simpa [isBrace] using hb
    rcases h2 with rfl | rfl
    · exact absurd h (by decide)
    · exact absurd h (by decide)

theorem bracesOf_append (a b : List Char) :
    bracesOf (a ++ b) = bracesOf a ++ bracesOf b := by
  simp [bracesOf, List.filter_append]

/-- The balance scan only depends on the brace skeleton, for
non-negative starting depth. -/
theorem balCheck_filter : ∀ (l : List Char) (d : Int), 0 ≤ d →
    balCheck l d = balCheck (bracesOf l) d := by
  intro l
  induction l with
  | nil => intro d _; rfl
  | cons c rest ih =>
    intro d hd
    by_cases hb : isBrace c = true
    · have hf : bracesOf (c :: rest) = c :: bracesOf rest := by
        simp [bracesOf, List.filter_cons, hb]
      rw [hf, balCheck, balCheck]
      by_cases hneg : d + delta c < 0
      · rw [if_pos hneg, if_pos hneg]
      · rw [if_neg hneg, if_neg hneg]
        exact ih (d + delta c) (by omega)
    · have hb' : isBrace c = false := by simpa using hb
      have hf : bracesOf (c :: rest) = bracesOf rest := by
        simp [bracesOf, List.filter_cons, hb']
      have hcc : c ≠ '\x7b' ∧ c ≠ '\x7d' := by simpa [isBrace] using hb'
      have hδ : delta c = 0 := by simp [delta, hcc.1, hcc.2]
      rw [hf, balCheck, hδ]
      simp only [Int.add_zero]
      rw [if_neg (by omega)]
      exact ih d hd

/-- Rendering with brace-free identifiers contributes exactly the brace
skeleton of the template's literal runs. -/
theorem bracesOf_render (uuid ipcVar objVar : List Char)
    (hu : ∀ c ∈ uuid, isBrace c = false) (hi : ∀ c ∈ ipcVar, isBrace c = false)
    (ho : ∀ c ∈ objVar, isBrace c = false) :
    ∀ ts : List Tok, bracesOf (render uuid ipcVar objVar ts) = bracesT ts := by
  intro ts
  induction ts with
  | nil => rfl
  | cons t ts ih =>
    cases t with
    | lit s => rw [render, bracesOf_append, ih, bracesT]
    | uuid =>
      rw [render, bracesOf_append, ih]
      have hnil : bracesOf uuid = [] :=
        List.filter_eq_nil_iff.mpr (fun a ha => by simp [hu a ha])
      rw [hnil]
      rfl
    | ipc =>
      rw [render, bracesOf_append, ih]
      have hnil : bracesOf ipcVar = [] :=
        List.filter_eq_nil_iff.mpr (fun a ha => by simp [hi a ha])
      rw [hnil]
      rfl
    | obj =>
      rw [render, bracesOf_append, ih]
      have hnil : bracesOf objVar = [] :=
        List.filter_eq_nil_iff.mpr (fun a ha => by simp [ho a ha])
      rw [hnil]
      rfl

/-- The synthesized injection code is exactly the spec template with the
three recovered identifiers substituted into every placeholder. -/
theorem buildInject_eq_render (uuid ipcVar objVar : List Char) :
    buildInject uuid ipcVar objVar = render uuid ipcVar objVar injectTemplate := by
  simp only [buildInject, injectTemplate, render, chanToks, joinSep, pfxOf, invOf,
    List.cons_append, List.nil_append, List.append_nil, List.append_assoc]

set_option maxRecDepth 400000 in
/-- C8: for every buffer from which the three identifiers are
successfully recovered (the UUID by the dashed-hex pattern, the
ipcRenderer accessor variable, and the settings-object variable of the
splice anchor), the synthesized injection code is exactly the injection
template with those recovered values substituted into every templated
placeholder; in the template every UUID placeholder sits inside a
channel string between `$eipc_message$_` and `_$_claude.settings_$_`,
every accessor placeholder is followed by `.ipcRenderer.invoke`, and
every settings-object placeholder is followed by `["claude.settings"]`;
and the synthesized code is balanced under the Extractor's
depth-counting rule (the depth never goes negative and returns to zero
at the end). -/
theorem inject_binding (content uuid ipcVar objVar orig : List Char)
    (hu : searchUuid content = some uuid)
    (hi : searchIpc content = some ipcVar)
    (ha : searchAnchor content = some (orig, objVar)) :
    buildInject uuid ipcVar objVar = render uuid ipcVar objVar injectTemplate ∧
    uuidSlotsOk injectTemplate = true ∧
    ipcSlotsOk injectTemplate = true ∧
    objSlotsOk injectTemplate = true ∧
    balCheck (buildInject uuid ipcVar objVar) 0 = true := by
  have hbu : ∀ c ∈ uuid, isBrace c = false := by
    obtain ⟨s, hs⟩ := searchA_some matchUuidAt content uuid hu
    exact fun c hc => hexdash_not_brace (matchUuidAt_some_hex hs c hc)
  have hbi : ∀ c ∈ ipcVar, isBrace c = false := by
    obtain ⟨s, hs⟩ := searchA_some matchIpcAt content ipcVar hi
    exact fun c hc => word_not_brace ((matchIpcAt_some_word hs).2 c hc)
  have hbo : ∀ c ∈ objVar, isBrace c = false := by
    obtain ⟨s, hs⟩ := searchA_some matchAnchorAt content (orig, objVar) ha
    exact fun c hc => word_not_brace ((matchAnchorAt_some_word hs).2 c hc)
  have heq := buildInject_eq_render uuid ipcVar objVar
  refine ⟨heq, by decide, by decide, by decide, ?_⟩
  rw [heq, balCheck_filter _ 0 le_rfl, bracesOf_render uuid ipcVar objVar hbu hbi hbo]
  decide

set_option maxRecDepth 400000 in
/-- C8 witness: a concrete buffer from which the UUID
`12345678-1234-1234-1234-123456789abc`, the accessor variable `o` and
the settings-object variable `C` are recovered, with the instantiated
binding and balance conclusions. -/
theorem inject_binding_witness :
    searchUuid (chars "o.ipcRenderer.invoke(\"$eipc_message$_12345678-1234-1234-1234-123456789abc_$_x\");Object.keys(C).forEach(t=>o.contextBridge.exposeInMainWorld(t,C[t]))")
      = some (chars "12345678-1234-1234-1234-123456789abc") ∧
    searchIpc (chars "o.ipcRenderer.invoke(\"$eipc_message$_12345678-1234-1234-1234-123456789abc_$_x\");Object.keys(C).forEach(t=>o.contextBridge.exposeInMainWorld(t,C[t]))")
      = some (chars "o") ∧
    searchAnchor (chars "o.ipcRenderer.invoke(\"$eipc_message$_12345678-1234-1234-1234-123456789abc_$_x\");Object.keys(C).forEach(t=>o.contextBridge.exposeInMainWorld(t,C[t]))")
      = some (chars "Object.keys(C).forEach(t=>o.contextBridge.exposeInMainWorld(t,C[t]))",
          chars "C") ∧
    (buildInject (chars "12345678-1234-1234-1234-123456789abc") (chars "o") (chars "C")
        = render (chars "12345678-1234-1234-1234-123456789abc") (chars "o") (chars "C")
            injectTemplate ∧
      uuidSlotsOk injectTemplate = true ∧
      ipcSlotsOk injectTemplate = true ∧
      objSlotsOk injectTemplate = true ∧
      balCheck (buildInject (chars "12345678-1234-1234-1234-123456789abc") (chars "o")
        (chars "C")) 0 = true) :=
  ⟨by decide, by decide, by decide,
    inject_binding
      (chars "o.ipcRenderer.invoke(\"$eipc_message$_12345678-1234-1234-1234-123456789abc_$_x\");Object.keys(C).forEach(t=>o.contextBridge.exposeInMainWorld(t,C[t]))")
      (chars "12345678-1234-1234-1234-123456789abc") (chars "o") (chars "C")
      (chars "Object.keys(C).forEach(t=>o.contextBridge.exposeInMainWorld(t,C[t]))")
      (by decide) (by decide) (by decide)⟩
